import Mathlib

/-!
Verification of the VacationSync activity proposal/acceptance lifecycle
against its client source (src/activities.tsx) and, where the server side
is not part of the source snapshot, against definitions modelled from the
design document (Activity Store / Acceptance Aggregator / Session Registry).

The embedding is shallow: the relevant TypeScript functions are translated
into executable Lean definitions; effectful callbacks (React Query mutation
handlers, WebSocket handlers) are embedded as the lists of effects they
perform; React Query's cache is an explicit list of entries together with
the library's key-matching semantics (a filter key matches every query
whose key it is an initial segment of).
-/

namespace VacationSync

/-! ## Data model (client side)

`ActivityWithDetails` is the shape the trip page consumes: the activity's
descriptive fields plus the per-caller `isAccepted` flag delivered by the
server.  Only the fields the verified functions inspect are carried. -/

structure ActivityWithDetails where
  id : Nat
  name : String
  category : String
  isAccepted : Bool
  deriving DecidableEq, Repr

structure User where
  id : String
  deriving DecidableEq, Repr

/-! ## The two calendar views (src/activities.tsx lines 825-839)

`getFilteredActivities` (group calendar): returns `[]` when the activities
query has no data, otherwise the whole list when the category filter is
"all", otherwise the activities of the selected category.  No predicate on
any member's response state is applied.

`getMySchedule` (personal calendar): returns `[]` when the activities query
has no data or there is no logged-in user, otherwise the activities whose
`isAccepted` flag is set. -/

def getFilteredActivities (activities : Option (List ActivityWithDetails))
    (categoryFilter : String) : List ActivityWithDetails :=
  match activities with
  | none => []
  | some acts =>
      if categoryFilter == "all" then acts
      else acts.filter (fun a => a.category == categoryFilter)

def getMySchedule (activities : Option (List ActivityWithDetails))
    (user : Option User) : List ActivityWithDetails :=
  match activities, user with
  | some acts, some _ => acts.filter (fun a => a.isAccepted)
  | _, _ => []

/-! The trip page's component state, as far as the two views read it. -/

structure TripPageState where
  activities : Option (List ActivityWithDetails)
  user : Option User
  categoryFilter : String
  deriving DecidableEq, Repr

def groupCalendarView (s : TripPageState) : List ActivityWithDetails :=
  getFilteredActivities s.activities s.categoryFilter

def personalScheduleView (s : TripPageState) : List ActivityWithDetails :=
  getMySchedule s.activities s.user

/-- C1: with the category filter at "all", the group-calendar view is the
whole fetched list (no response-based predicate is applied), while the
personal-schedule view is exactly the sub-list of activities whose
`isAccepted` flag for the requesting member is set. -/
theorem c1_group_view_all_personal_view_accepted
    (acts : List ActivityWithDetails) (u : User) :
    getFilteredActivities (some acts) "all" = acts
    ∧ getMySchedule (some acts) (some u) = acts.filter (fun a => a.isAccepted)
    ∧ (∀ a : ActivityWithDetails,
        a ∈ getMySchedule (some acts) (some u) ↔ a ∈ acts ∧ a.isAccepted = true) := by
  refine ⟨rfl, rfl, fun a => ?_⟩
  simp [getMySchedule, List.mem_filter]

/-- C9: the personal-schedule view does not depend on the category filter:
two component states agreeing on the fetched activities and the user, but
with arbitrary (possibly different) category filters, produce the same
personal schedule. -/
theorem c9_personal_schedule_ignores_category_filter
    (s₁ s₂ : TripPageState)
    (hacts : s₁.activities = s₂.activities) (huser : s₁.user = s₂.user) :
    personalScheduleView s₁ = personalScheduleView s₂ := by
  unfold personalScheduleView
  rw [hacts, huser]

/-- Witness for C9 at concrete states differing only in the category filter. -/
theorem c9_personal_schedule_ignores_category_filter_witness :
    (TripPageState.activities ⟨some [⟨1, "Dinner", "food", true⟩], some ⟨"u1"⟩, "all"⟩
        = TripPageState.activities ⟨some [⟨1, "Dinner", "food", true⟩], some ⟨"u1"⟩, "food"⟩)
    ∧ (TripPageState.user ⟨some [⟨1, "Dinner", "food", true⟩], some ⟨"u1"⟩, "all"⟩
        = TripPageState.user ⟨some [⟨1, "Dinner", "food", true⟩], some ⟨"u1"⟩, "food"⟩)
    ∧ personalScheduleView ⟨some [⟨1, "Dinner", "food", true⟩], some ⟨"u1"⟩, "all"⟩
        = personalScheduleView ⟨some [⟨1, "Dinner", "food", true⟩], some ⟨"u1"⟩, "food"⟩ :=
  ⟨rfl, rfl,
    c9_personal_schedule_ignores_category_filter
      ⟨some [⟨1, "Dinner", "food", true⟩], some ⟨"u1"⟩, "all"⟩
      ⟨some [⟨1, "Dinner", "food", true⟩], some ⟨"u1"⟩, "food"⟩ rfl rfl⟩

/-- C10: for every state of the activities query and of the user, the
personal schedule is a subset of the group-calendar view taken with the
category filter at "all": both are filters over the same fetched list. -/
theorem c10_personal_schedule_subset_of_group_view
    (activities : Option (List ActivityWithDetails)) (user : Option User) :
    getMySchedule activities user ⊆ getFilteredActivities activities "all" := by
  cases activities with
  | none => cases user <;> simp [getMySchedule]
  | some acts =>
      cases user with
      | none => simp [getMySchedule]
      | some u =>
          intro a ha
          have ha2 : a ∈ acts.filter (fun x => x.isAccepted) := ha
          have hall : getFilteredActivities (some acts) "all" = acts := by
            simp [getFilteredActivities]
          rw [hall]
          exact List.mem_of_mem_filter ha2

/-- Witness for C10: an accepted activity in the personal schedule is in the
group view. -/
theorem c10_personal_schedule_subset_of_group_view_witness :
    (⟨1, "Dinner", "food", true⟩ : ActivityWithDetails)
      ∈ getFilteredActivities (some [⟨1, "Dinner", "food", true⟩]) "all" :=
  c10_personal_schedule_subset_of_group_view
    (some [⟨1, "Dinner", "food", true⟩]) (some ⟨"u1"⟩) (by decide)

/-! ## Query keys and React Query invalidation semantics

A query key is a list of segments.  `queryClient.invalidateQueries` with a
filter key matches every registered query whose key the filter key is an
initial segment of (React Query's partial matching); a matched active query
is refetched. -/

abbrev QueryKey := List String

/-- `initialSegment k q` : the segments of `k` are the first segments of `q`. -/
def initialSegment : QueryKey → QueryKey → Bool
  | [], _ => true
  | _ :: _, [] => false
  | a :: as, b :: bs => a == b && initialSegment as bs

/-- The key the trip page fetches the activities list under
(src/activities.tsx line 665): the single segment string built from the
trip id by template interpolation. -/
def activitiesQueryKey (id : String) : QueryKey :=
  ["/api/trips/" ++ id ++ "/activities"]

/- ## Effects

The effectful client callbacks are embedded as the lists of effects they
perform, in program order. -/

inductive HttpMethod
  | get
  | post
  | delete
  deriving DecidableEq, Repr

structure HttpRequest where
  method : HttpMethod
  path : String
  deriving DecidableEq, Repr

structure ToastMsg where
  title : String
  description : String
  variant : Option String := none
  deriving DecidableEq, Repr

/-- The message `socket.onopen` sends (src/activities.tsx lines 705-711). -/
structure JoinMessage where
  type : String
  userId : String
  tripId : Nat
  deriving DecidableEq, Repr

inductive ClientEffect
  | createSocket
  | wsSend (m : JoinMessage)
  | invalidateQueries (filterKey : QueryKey)
  | fetchQuery (key : QueryKey)
  | showToast (t : ToastMsg)
  | httpFetch (r : HttpRequest)
  | navigate (path : String)
  deriving DecidableEq, Repr

/-- Cache-affecting effects: query invalidation (marks matching queries
stale and refetches active ones) and direct query fetches. -/
def ClientEffect.touchesCache : ClientEffect → Bool
  | .invalidateQueries _ => true
  | .fetchQuery _ => true
  | _ => false

/-- Does an effect cause the activities query of trip `id` to be
refetched?  An invalidation does iff its filter key is an initial segment
of the activities query key. -/
def triggersActivitiesRefetch (id : String) : ClientEffect → Bool
  | .invalidateQueries fk => initialSegment fk (activitiesQueryKey id)
  | .fetchQuery k => k == activitiesQueryKey id
  | _ => false

/-- An explicit cache: each entry is a registered query's key, its cached
data and its staleness mark. -/
structure CacheEntry where
  key : QueryKey
  data : List ActivityWithDetails
  stale : Bool
  deriving DecidableEq, Repr

def applyEffect (c : List CacheEntry) : ClientEffect → List CacheEntry
  | .invalidateQueries fk =>
      c.map (fun e => if initialSegment fk e.key then { e with stale := true } else e)
  | _ => c

def applyEffects (c : List CacheEntry) (effs : List ClientEffect) : List CacheEntry :=
  effs.foldl applyEffect c

/-! ## WebSocket handlers (src/activities.tsx lines 697-725)

The effect installs `onopen` and `onmessage` on the socket; no `onclose`
or `onerror` handler is installed, and the effect's cleanup closes the
socket.  The `onmessage` handler invalidates the key
`["/api/trips", id, "activities"]` when the message type is one of the
three change kinds it recognises. -/

structure WsHandlers where
  onopenEffects : List ClientEffect
  onmessageEffects : String → List ClientEffect
  oncloseEffects : Option (List ClientEffect)
  onerrorEffects : Option (List ClientEffect)

def wsInvalidationKey (id : String) : QueryKey :=
  ["/api/trips", id, "activities"]

def tripWsHandlers (id : String) (userId : String) (tripId : Nat) : WsHandlers where
  onopenEffects :=
    [ .wsSend { type := "join_trip", userId := userId, tripId := tripId } ]
  onmessageEffects := fun t =>
    if t == "activity_created" || t == "activity_accepted" || t == "activity_declined" then
      [ .invalidateQueries (wsInvalidationKey id) ]
    else []
  oncloseEffects := none
  onerrorEffects := none

/-! ## Mutations (src/activities.tsx lines 727-775)

Each `useMutation` call is embedded as the request its `mutationFn` sends
plus the effect lists of the callbacks it registers.  Neither mutation
passes an `onMutate` callback (no optimistic update), so that field is
`none`. -/

structure MutationModel where
  request : Nat → HttpRequest
  onMutate : Option (Nat → List ClientEffect)
  onSuccessEffects : List ClientEffect
  onErrorEffects : List ClientEffect

/-- The only effect of a `mutationFn` besides its return value: the HTTP
request it sends (it performs no cache operation). -/
def mutationFnEffects (m : MutationModel) (activityId : Nat) : List ClientEffect :=
  [ .httpFetch (m.request activityId) ]

def acceptActivityMutation (id : String) : MutationModel where
  request := fun activityId =>
    { method := .post, path := "/api/activities/" ++ toString activityId ++ "/accept" }
  onMutate := none
  onSuccessEffects :=
    [ .invalidateQueries (activitiesQueryKey id),
      .showToast { title := "Activity accepted!",
                   description := "Added to your personal calendar" } ]
  onErrorEffects :=
    [ .showToast { title := "Error",
                   description := "Failed to accept activity",
                   variant := some "destructive" } ]

def declineActivityMutation (id : String) : MutationModel where
  request := fun activityId =>
    { method := .delete, path := "/api/activities/" ++ toString activityId ++ "/accept" }
  onMutate := none
  onSuccessEffects :=
    [ .invalidateQueries (activitiesQueryKey id),
      .showToast { title := "Activity declined",
                   description := "Removed from your calendar" } ]
  onErrorEffects :=
    [ .showToast { title := "Error",
                   description := "Failed to decline activity",
                   variant := some "destructive" } ]

/-! ## Client event traces

For the temporal claims, the trip page's live-channel behaviour is a
dispatch function from events to the effects the installed handlers run:
the effect body re-running creates a (new) socket, an open socket fires
`onopen`, an inbound message fires `onmessage`, and a closed connection
fires the installed close handler — of which the source installs none. -/

inductive ClientEvent
  | effectRun
  | socketOpen
  | socketMessage (t : String)
  | socketClosed
  deriving DecidableEq, Repr

def dispatch (h : WsHandlers) : ClientEvent → List ClientEffect
  | .effectRun => [ .createSocket ]
  | .socketOpen => h.onopenEffects
  | .socketMessage t => h.onmessageEffects t
  | .socketClosed => h.oncloseEffects.getD []

/-- The change kinds of the design: created, accepted, declined, deleted. -/
def isChangeMessage (t : String) : Bool :=
  t == "activity_created" || t == "activity_accepted"
    || t == "activity_declined" || t == "activity_deleted"

/-- Scans an event trace with a flag saying whether a full resynchronization
is still owed because the connection dropped.  Returns `true` iff somewhere
a change message is acted upon (its handler runs a non-empty effect list
that does not itself begin by refetching the activities list) while a
resynchronization is owed. -/
def appliesChangeWithoutResync (h : WsHandlers) (id : String) :
    List ClientEvent → Bool → Bool
  | [], _ => false
  | ev :: evs, pendingResync =>
      let effs := dispatch h ev
      let violatesHere :=
        match ev with
        | .socketMessage t =>
            pendingResync && isChangeMessage t && !effs.isEmpty
              && !(effs.any (triggersActivitiesRefetch id))
        | _ => false
      let pendingNext :=
        if ev == .socketClosed then true
        else if effs.any (triggersActivitiesRefetch id) then false
        else pendingResync
      violatesHere || appliesChangeWithoutResync h id evs pendingNext

/-! ## Session registry (server side) -/

/-- Modelled from the spec: the Session Registry (§4.4) is server code not
present in the source snapshot.  A registry is the list of
(session handle, group id) registrations; `join` registers a session
against a group, a session being joined to at most one group at a time
(a later join replaces any earlier registration of the same session). -/
def joinGroup (reg : List (Nat × Nat)) (session groupId : Nat) : List (Nat × Nat) :=
  (session, groupId) :: reg.filter (fun p => !(p.1 == session))

/-- Modelled from the spec: the groups a session is registered for. -/
def groupsOf (reg : List (Nat × Nat)) (session : Nat) : List Nat :=
  (reg.filter (fun p => p.1 == session)).map (fun p => p.2)

/-- C2 evaluated at the failing input (trip id "5"): the WebSocket message
handler reacts to a change message by invalidating
`["/api/trips", "5", "activities"]`, but that filter key is not an initial
segment of the key the activities list was fetched under
(`["/api/trips/5/activities"]`), so the invalidation matches nothing, no
refetch is triggered, and the cached activities entry is left untouched;
a `deleted` change message is not handled at all. -/
theorem c2_ws_invalidation_misses_activities_query :
    ((tripWsHandlers "5" "u1" 5).onmessageEffects "activity_accepted"
        = [ .invalidateQueries ["/api/trips", "5", "activities"] ])
    ∧ ((tripWsHandlers "5" "u1" 5).onmessageEffects "activity_created"
        = [ .invalidateQueries ["/api/trips", "5", "activities"] ])
    ∧ ((tripWsHandlers "5" "u1" 5).onmessageEffects "activity_declined"
        = [ .invalidateQueries ["/api/trips", "5", "activities"] ])
    ∧ initialSegment ["/api/trips", "5", "activities"] (activitiesQueryKey "5") = false
    ∧ (((tripWsHandlers "5" "u1" 5).onmessageEffects "activity_accepted").any
         (triggersActivitiesRefetch "5") = false)
    ∧ ((tripWsHandlers "5" "u1" 5).onmessageEffects "activity_deleted" = [])
    ∧ applyEffects [⟨activitiesQueryKey "5", [], false⟩]
        ((tripWsHandlers "5" "u1" 5).onmessageEffects "activity_accepted")
      = [⟨activitiesQueryKey "5", [], false⟩] := by
  decide

/-- C4 counterexample: the claim says the client's decline action submits
the member's stance through the same record-response operation as accept;
at activity id 7 the decline request's HTTP operation (DELETE) differs from
the accept request's (POST), so decline is not the same operation. -/
theorem c4_decline_not_same_operation_counterexample :
    ((declineActivityMutation "5").request 7).method = .delete
    ∧ ((acceptActivityMutation "5").request 7).method = .post
    ∧ ¬ (((declineActivityMutation "5").request 7).method
          = ((acceptActivityMutation "5").request 7).method) := by
  refine ⟨rfl, rfl, ?_⟩
  decide

/-- C4 amended: accept and decline target the same endpoint path
`/api/activities/(id)/accept`, but through different HTTP operations —
accept POSTs to it while decline issues a DELETE of the acceptance, rather
than submitting an accepted=false stance through the accept operation. -/
theorem c4_accept_decline_same_path_different_methods
    (id : String) (activityId : Nat) :
    ((acceptActivityMutation id).request activityId).path
      = ((declineActivityMutation id).request activityId).path
    ∧ ((acceptActivityMutation id).request activityId).method = .post
    ∧ ((declineActivityMutation id).request activityId).method = .delete :=
  ⟨rfl, rfl, rfl⟩

/-- C5: neither mutation registers an optimistic `onMutate` update, the
request function touches no cached query, the error path applies no
cache-affecting effect (any cache is left exactly as it was; only an error
toast is shown), and the cache invalidation happens only in the success
callbacks. -/
theorem c5_error_path_leaves_cache_unchanged
    (id : String) (c : List CacheEntry) (activityId : Nat) :
    (acceptActivityMutation id).onMutate = none
    ∧ (declineActivityMutation id).onMutate = none
    ∧ ((mutationFnEffects (acceptActivityMutation id) activityId).filter
         ClientEffect.touchesCache = [])
    ∧ ((mutationFnEffects (declineActivityMutation id) activityId).filter
         ClientEffect.touchesCache = [])
    ∧ applyEffects c (acceptActivityMutation id).onErrorEffects = c
    ∧ applyEffects c (declineActivityMutation id).onErrorEffects = c
    ∧ (acceptActivityMutation id).onErrorEffects
        = [ .showToast ⟨"Error", "Failed to accept activity", some "destructive"⟩ ]
    ∧ (declineActivityMutation id).onErrorEffects
        = [ .showToast ⟨"Error", "Failed to decline activity", some "destructive"⟩ ]
    ∧ ((acceptActivityMutation id).onSuccessEffects.filter ClientEffect.touchesCache
        = [ .invalidateQueries (activitiesQueryKey id) ])
    ∧ ((declineActivityMutation id).onSuccessEffects.filter ClientEffect.touchesCache
        = [ .invalidateQueries (activitiesQueryKey id) ]) :=
  ⟨rfl, rfl, rfl, rfl, rfl, rfl, rfl, rfl, rfl, rfl⟩

/-- C6 counterexample: a trace in which the connection drops, the effect
re-runs (creating a new socket, with no re-fetch of the activities list),
and a change message is then acted upon although no full
resynchronization has happened since the drop.  The claim states no such
trace exists; this trace exhibits one. -/
theorem c6_change_applied_after_drop_without_resync_counterexample :
    appliesChangeWithoutResync (tripWsHandlers "5" "u1" 5) "5"
      [ .effectRun, .socketOpen, .socketClosed, .effectRun, .socketOpen,
        .socketMessage "activity_accepted" ] false = true := by
  decide

/-- C6 amended: the client installs no close handler, so a dropped
connection triggers no client logic at all (in particular no automatic
reconnection); a new connection only arises from the effect re-running,
which creates a socket but re-fetches nothing; and no inbound message ever
triggers a refetch of the activities query (its invalidation key matches
nothing), so change events after a re-connection are handled without any
prior full resynchronization. -/
theorem c6_amended_no_reconnect_logic_no_resync
    (id userId : String) (tripId : Nat) :
    (tripWsHandlers id userId tripId).oncloseEffects = none
    ∧ dispatch (tripWsHandlers id userId tripId) .socketClosed = []
    ∧ dispatch (tripWsHandlers id userId tripId) .effectRun = [ .createSocket ]
    ∧ ((dispatch (tripWsHandlers id userId tripId) .effectRun).any
         (triggersActivitiesRefetch id) = false)
    ∧ (∀ t : String,
        ((tripWsHandlers id userId tripId).onmessageEffects t).any
          (triggersActivitiesRefetch id) = false) := by
  refine ⟨rfl, rfl, rfl, rfl, fun t => ?_⟩
  simp only [tripWsHandlers]
  split
  · simp [triggersActivitiesRefetch, wsInvalidationKey, activitiesQueryKey, initialSegment]
  · rfl

/-- C7: on open, the client's first (and only) message is the join message
carrying the connecting member's id and the single trip being joined; and
the (spec-modelled) Session Registry processing that join leaves the
session registered for exactly that one group. -/
theorem c7_onopen_sends_join_registering_single_group
    (id userId : String) (tripId session : Nat) (reg : List (Nat × Nat)) :
    (tripWsHandlers id userId tripId).onopenEffects
      = [ .wsSend { type := "join_trip", userId := userId, tripId := tripId } ]
    ∧ groupsOf (joinGroup reg session tripId) session = [tripId] := by
  refine ⟨rfl, ?_⟩
  have hnil : (reg.filter (fun p => !(p.1 == session))).filter
      (fun p => p.1 == session) = [] := by
    rw [List.filter_eq_nil_iff]
    intro p hp
    have h2 := (List.mem_filter.mp hp).2
    simp only [Bool.not_eq_true'] at h2
    simp [h2]
  simp [groupsOf, joinGroup, List.filter_cons, hnil]

/-! ## Proposing a discovered activity (src/activities.tsx lines 108-165)

`handleProposeActivity` builds the POST body from the discovered activity:
start time is today's date at the literal time "12:00" (the discovered
activity carries no schedule of its own), end time is null, capacity the
constant 10, and cost is `parseFloat(activity.price)` when the price string
is truthy (non-empty) and null otherwise.

JavaScript numbers are embedded as `JSNumber`: NaN, a signed infinity, or
an exact rational value (finite results are kept exact; the prices involved
are short decimal literals).  `parseFloat` follows the ECMAScript builtin:
skip leading StrWhiteSpace (the WhiteSpace and LineTerminator characters),
an optional sign, then either the literal character run `Infinity` or the
longest decimal literal (digits, optional fraction, optional exponent); if
neither an `Infinity` run nor a digit in the integer or fraction part is
found, the result is NaN. -/

inductive JSNumber
  | nan
  | infinity (negative : Bool)
  | num (q : ℚ)
  deriving DecidableEq, Repr

def digitsVal (ds : List Char) : ℕ :=
  ds.foldl (fun n c => 10 * n + (c.toNat - '0'.toNat)) 0

/-- ECMAScript StrWhiteSpaceChar: TAB, LF, VT, FF, CR, SP, NBSP, the Zs
space separators, the line and paragraph separators and ZWNBSP. -/
def strWhiteSpaceChars : List Char :=
  [ Char.ofNat 0x09, Char.ofNat 0x0A, Char.ofNat 0x0B, Char.ofNat 0x0C,
    Char.ofNat 0x0D, Char.ofNat 0x20, Char.ofNat 0xA0, Char.ofNat 0x1680,
    Char.ofNat 0x2000, Char.ofNat 0x2001, Char.ofNat 0x2002, Char.ofNat 0x2003,
    Char.ofNat 0x2004, Char.ofNat 0x2005, Char.ofNat 0x2006, Char.ofNat 0x2007,
    Char.ofNat 0x2008, Char.ofNat 0x2009, Char.ofNat 0x200A, Char.ofNat 0x2028,
    Char.ofNat 0x2029, Char.ofNat 0x202F, Char.ofNat 0x205F, Char.ofNat 0x3000,
    Char.ofNat 0xFEFF ]

def isStrWhiteSpace (c : Char) : Bool :=
  strWhiteSpaceChars.contains c

/-- `charsLead xs ys` : the characters `xs` are an initial run of `ys`. -/
def charsLead : List Char → List Char → Bool
  | [], _ => true
  | _ :: _, [] => false
  | a :: as, b :: bs => a == b && charsLead as bs

/-- Leading whitespace and optional sign of a numeric literal: returns
whether the sign is negative and the remaining characters. -/
def stripWsSign (s : String) : Bool × List Char :=
  let cs := s.data.dropWhile isStrWhiteSpace
  match cs with
  | '-' :: r => (true, r)
  | '+' :: r => (false, r)
  | _ => (false, cs)

/-- The mantissa of a decimal literal: its value and the remaining
characters, or `none` when no digit occurs in the integer or fraction
part. -/
def parseMantissa (cs : List Char) : Option (ℚ × List Char) :=
  let ip := cs.takeWhile Char.isDigit
  let cs2 := cs.dropWhile Char.isDigit
  match cs2 with
  | '.' :: r =>
      let fp := r.takeWhile Char.isDigit
      if ip.isEmpty && fp.isEmpty then none
      else some ((digitsVal ip : ℚ) + (digitsVal fp : ℚ) / (10 : ℚ) ^ fp.length,
                 r.dropWhile Char.isDigit)
  | _ => if ip.isEmpty then none else some ((digitsVal ip : ℚ), cs2)

/-- The optional exponent part `e`/`E`, sign, digits. -/
def parseExponent (cs : List Char) : ℤ :=
  match cs with
  | 'e' :: r => parseExponentTail r
  | 'E' :: r => parseExponentTail r
  | _ => 0
where
  parseExponentTail (r : List Char) : ℤ :=
    let (esgn, r1) : ℤ × List Char :=
      match r with
      | '-' :: r2 => (-1, r2)
      | '+' :: r2 => (1, r2)
      | _ => (1, r)
    let ed := r1.takeWhile Char.isDigit
    if ed.isEmpty then 0 else esgn * (digitsVal ed : ℤ)

/-- The character run of the `Infinity` production. -/
def infinityChars : List Char :=
  ['I', 'n', 'f', 'i', 'n', 'i', 't', 'y']

def parseFloat (s : String) : JSNumber :=
  let (neg, cs) := stripWsSign s
  if charsLead infinityChars cs then .infinity neg
  else
    match parseMantissa cs with
    | none => .nan
    | some (m, rest) =>
        let v : ℚ := m * (10 : ℚ) ^ parseExponent rest
        .num (if neg then -v else v)

/-- The claim's side condition, stated independently of `parseFloat`: after
leading whitespace and an optional sign, the string starts with a digit, or
with a decimal point followed by a digit. -/
def hasLeadingNumber (s : String) : Bool :=
  match (stripWsSign s).2 with
  | [] => false
  | c :: rest =>
      c.isDigit
        || (c == '.' && match rest with
            | [] => false
            | d :: _ => d.isDigit)

/-- After leading whitespace and an optional sign, the string continues
with the literal character run `Infinity`. -/
def hasLeadingInfinity (s : String) : Bool :=
  charsLead infinityChars (stripWsSign s).2

theorem parseMantissa_eq_none_iff (cs : List Char) :
    parseMantissa cs = none ↔
      (match cs with
       | [] => false
       | c :: rest =>
           c.isDigit
             || (c == '.' && match rest with
                 | [] => false
                 | d :: _ => d.isDigit)) = false := by
  cases cs with
  | nil => simp [parseMantissa]
  | cons c rest =>
      by_cases hd : c.isDigit
      · have hip : (c :: rest).takeWhile Char.isDigit
            = c :: rest.takeWhile Char.isDigit := by
          simp [List.takeWhile_cons, hd]
        simp only [parseMantissa, hip, List.isEmpty_cons, Bool.false_and]
        constructor
        · intro h
          split at h
          · simp at h
          · simp at h
        · intro h
          simp [hd] at h
      · have hip : (c :: rest).takeWhile Char.isDigit = [] := by
          simp [List.takeWhile_cons, hd]
        have hdp : (c :: rest).dropWhile Char.isDigit = c :: rest := by
          simp [List.dropWhile_cons, hd]
        by_cases hdot : c = '.'
        · subst hdot
          simp only [parseMantissa, hip, hdp, List.isEmpty_nil, Bool.true_and, hd,
            Bool.false_or]
          cases rest with
          | nil => simp
          | cons d r2 =>
              by_cases hd2 : d.isDigit
              · simp [List.takeWhile_cons, hd2]
              · simp [List.takeWhile_cons, hd2]
        · have hnone : parseMantissa (c :: rest) = none := by
            simp only [parseMantissa, hip, hdp]
            split
            · next r heq =>
                rw [List.cons.injEq] at heq
                exact absurd heq.1 hdot
            · simp
          rw [hnone]
          simp [hd, hdot]

/-- `parseFloat` is NaN exactly when the string has neither a leading
numeric part nor a leading `Infinity` run. -/
theorem parseFloat_nan_iff (s : String) :
    parseFloat s = .nan
      ↔ (hasLeadingNumber s = false ∧ hasLeadingInfinity s = false) := by
  unfold parseFloat hasLeadingNumber hasLeadingInfinity
  rcases h : stripWsSign s with ⟨neg, cs⟩
  simp only
  by_cases hinf : charsLead infinityChars cs = true
  · simp [hinf]
  · rw [Bool.not_eq_true] at hinf
    simp only [hinf, Bool.false_eq_true, if_false, and_true]
    rw [← parseMantissa_eq_none_iff]
    cases hm : parseMantissa cs with
    | none => simp
    | some p => simp

/-- The shape of a discovered activity (src/activities.tsx interface
`Activity`, lines 30-41): no schedule of its own, a `price` string. -/
structure DiscoveredActivity where
  name : String
  description : String
  location : String
  category : String
  price : String
  duration : String
  bookingUrl : String
  deriving DecidableEq, Repr

/-- The start instant the handler builds: today's (UTC) date combined with
the literal local time "12:00".  The source round-trips this through
`new Date(...)` / `toISOString()`, an injective re-encoding for a fixed
environment; the embedding keeps the information content, the
(date, time) pair. -/
structure DateTimeLocal where
  date : String
  time : String
  deriving DecidableEq, Repr

/-- The POST body of `/api/trips/(tripId)/activities` as built by
`handleProposeActivity`. -/
structure ProposeActivityRequest where
  name : String
  description : String
  location : String
  startTime : DateTimeLocal
  endTime : Option DateTimeLocal
  category : String
  cost : Option JSNumber
  maxCapacity : Nat
  tripCalendarId : Nat
  deriving DecidableEq, Repr

/-- src/activities.tsx lines 108-135.  `todayDate` is
`new Date().toISOString().split('T')[0]`; the ternary
`activity.price ? parseFloat(activity.price) : null` sends null exactly
when the price string is empty (the only falsy string). -/
def handleProposeActivity (todayDate : String) (tripId : Nat)
    (a : DiscoveredActivity) : ProposeActivityRequest where
  name := a.name
  description := a.description
  location := a.location
  startTime := { date := todayDate, time := "12:00" }
  endTime := none
  category := a.category
  cost := if a.price == "" then none else some (parseFloat a.price)
  maxCapacity := 10
  tripCalendarId := tripId

/-- C8 counterexample: the claim states the cost is NaN whenever the
(non-empty) price string has no leading numeric prefix; at price
"Infinity" that fails — the string is non-empty and has no leading numeric
prefix, yet the JS builtin produces Infinity, not NaN, so the proposed
request carries cost Infinity. -/
theorem c8_nan_parenthetical_counterexample :
    hasLeadingNumber "Infinity" = false
    ∧ ("Infinity" == "") = false
    ∧ parseFloat "Infinity" = JSNumber.infinity false
    ∧ (handleProposeActivity "2026-10-11" 5
        ⟨"Spa day", "d", "loc", "relax", "Infinity", "2h", "url"⟩).cost
        = some (JSNumber.infinity false)
    ∧ some (JSNumber.infinity false) ≠ some JSNumber.nan := by
  decide

/-- C8 amended: for every discovered activity, the proposed creation
request has start time = the current date at 12:00 (independent of the
activity, which carries no schedule), null end time, capacity 10, and
cost = parseFloat of the price string when it is non-empty — NaN exactly
when that string has neither a leading numeric part nor a leading
`Infinity` run (the one further numeric form the builtin accepts) — and
null when the price string is empty. -/
theorem c8_propose_request_shape
    (todayDate : String) (tripId : Nat) (a : DiscoveredActivity) :
    (handleProposeActivity todayDate tripId a).startTime
        = { date := todayDate, time := "12:00" }
    ∧ (handleProposeActivity todayDate tripId a).endTime = none
    ∧ (handleProposeActivity todayDate tripId a).maxCapacity = 10
    ∧ (handleProposeActivity todayDate tripId a).cost
        = (if a.price == "" then none else some (parseFloat a.price))
    ∧ (∀ s : String, parseFloat s = .nan
        ↔ (hasLeadingNumber s = false ∧ hasLeadingInfinity s = false)) :=
  ⟨rfl, rfl, rfl, rfl, parseFloat_nan_iff⟩

/-! ## C3: acceptance / personal-schedule equivalence -/

structure StoredActivity where
  id : Nat
  name : String
  category : String
  deriving DecidableEq, Repr

structure ActivityResponse where
  activityId : Nat
  userId : String
  accepted : Bool
  deriving DecidableEq, Repr

/-- Modelled from the spec: the Acceptance Aggregator's pure derivation
(§4.2) is server code not present in the source snapshot.
`deriveView activity responses callerId` returns the activity with
`isAccepted` = true iff a response of the caller for this activity with
accepted=true is among `responses` (the activity's own responses). -/
def deriveView (a : StoredActivity) (responses : List ActivityResponse)
    (callerId : String) : ActivityWithDetails where
  id := a.id
  name := a.name
  category := a.category
  isAccepted := responses.any (fun r => r.userId == callerId && r.accepted)

/-- Modelled from the spec: the activities list endpoint the client fetches
— every activity of the group, each derived with the caller's own
acceptance state. -/
def listActivitiesFor (acts : List StoredActivity) (allRs : List ActivityResponse)
    (callerId : String) : List ActivityWithDetails :=
  acts.map (fun b =>
    deriveView b (allRs.filter (fun r => r.activityId == b.id)) callerId)

/-- Member `m`'s client shows activity `aid` on their personal schedule:
the schedule `getMySchedule` computes from `m`'s fetched list contains an
activity with that id. -/
def showsOnPersonalSchedule (acts : List StoredActivity)
    (allRs : List ActivityResponse) (m : User) (aid : Nat) : Bool :=
  (getMySchedule (some (listActivitiesFor acts allRs m.id)) (some m)).any
    (fun v => v.id == aid)

theorem showsOnPersonalSchedule_iff (a : StoredActivity)
    (acts : List StoredActivity) (allRs : List ActivityResponse) (m : String)
    (hmem : a ∈ acts) :
    showsOnPersonalSchedule acts allRs ⟨m⟩ a.id = true
      ↔ ∃ r ∈ allRs, r.activityId = a.id ∧ r.userId = m ∧ r.accepted = true := by
  simp only [showsOnPersonalSchedule, getMySchedule, listActivitiesFor, deriveView,
    List.any_eq_true, List.mem_filter, List.mem_map]
  constructor
  · rintro ⟨v, ⟨⟨b, hb, rfl⟩, hacc⟩, hid⟩
    simp only [List.any_eq_true, List.mem_filter, Bool.and_eq_true, beq_iff_eq] at hacc hid
    obtain ⟨r, ⟨hr, hrid⟩, hru, hra⟩ := hacc
    exact ⟨r, hr, by omega, hru, hra⟩
  · rintro ⟨r, hr, hrid, hru, hra⟩
    refine ⟨deriveView a (allRs.filter (fun r => r.activityId == a.id)) m, ⟨⟨a, hmem, rfl⟩, ?_⟩, ?_⟩
    · simp only [deriveView, List.any_eq_true, List.mem_filter, Bool.and_eq_true, beq_iff_eq]
      exact ⟨r, ⟨hr, hrid⟩, hru, hra⟩
    · simp [deriveView]

theorem nodup_accepted_userIds : ∀ (allRs : List ActivityResponse) (aid : Nat),
    (allRs.map (fun r => (r.activityId, r.userId))).Nodup →
    ((allRs.filter (fun r => r.activityId == aid && r.accepted)).map
        (fun r => r.userId)).Nodup
  | [], _, _ => by simp
  | r :: t, aid, h => by
      have hpair : (r.activityId, r.userId) ∉ t.map (fun s => (s.activityId, s.userId)) :=
        (List.nodup_cons.mp h).1
      have ht := (List.nodup_cons.mp h).2
      by_cases hk : (r.activityId == aid && r.accepted) = true
      · have hkeep : (r :: t).filter (fun s => s.activityId == aid && s.accepted)
            = r :: t.filter (fun s => s.activityId == aid && s.accepted) :=
          List.filter_cons_of_pos hk
        rw [hkeep, List.map_cons, List.nodup_cons]
        refine ⟨?_, nodup_accepted_userIds t aid ht⟩
        intro hin
        simp only [List.mem_map, List.mem_filter, Bool.and_eq_true, beq_iff_eq] at hin
        obtain ⟨s, ⟨hs, hsid, hsacc⟩, hsu⟩ := hin
        apply hpair
        have hrid : r.activityId = aid := by
          simp only [Bool.and_eq_true, beq_iff_eq] at hk
          exact hk.1
        rw [List.mem_map]
        exact ⟨s, hs, by rw [hsid, hrid, hsu]⟩
      · have hdrop : (r :: t).filter (fun s => s.activityId == aid && s.accepted)
            = t.filter (fun s => s.activityId == aid && s.accepted) :=
          List.filter_cons_of_neg (by simpa using hk)
        rw [hdrop]
        exact nodup_accepted_userIds t aid ht

theorem length_filter_mem : ∀ (ms : List String), ms.Nodup →
    ∀ ids : List String, ids.Nodup → (∀ x ∈ ids, x ∈ ms) →
      (ms.filter (fun m => decide (m ∈ ids))).length = ids.length
  | [], _, ids, _, hsub => by
      cases ids with
      | nil => rfl
      | cons x t => exact absurd (hsub x (List.mem_cons_self x t)) (List.not_mem_nil x)
  | m :: t, hms, ids, hids, hsub => by
      have hmt : m ∉ t := (List.nodup_cons.mp hms).1
      have ht : t.Nodup := (List.nodup_cons.mp hms).2
      by_cases hmem : m ∈ ids
      · have hkeep : (m :: t).filter (fun x => decide (x ∈ ids))
            = m :: t.filter (fun x => decide (x ∈ ids)) := by
          simp [List.filter_cons, hmem]
        have hcongr : t.filter (fun x => decide (x ∈ ids))
            = t.filter (fun x => decide (x ∈ ids.erase m)) := by
          apply List.filter_congr
          intro x hx
          have hxm : x ≠ m := fun hEq => hmt (hEq ▸ hx)
          simp [List.mem_erase_of_ne hxm]
        have hsub2 : ∀ x ∈ ids.erase m, x ∈ t := by
          intro x hx
          have hxne : x ≠ m := by
            intro hEq
            subst hEq
            exact (List.Nodup.not_mem_erase hids) hx
          have hxin : x ∈ ids := List.mem_of_mem_erase hx
          rcases List.mem_cons.mp (hsub x hxin) with hEq | hT
          · exact absurd hEq hxne
          · exact hT
        have hrec := length_filter_mem t ht (ids.erase m) (hids.erase m) hsub2
        have hlen : (ids.erase m).length = ids.length - 1 :=
          List.length_erase_of_mem hmem
        have hpos : 0 < ids.length := List.length_pos_of_mem hmem
        rw [hkeep, List.length_cons, hcongr, hrec, hlen]
        omega
      · have hdrop : (m :: t).filter (fun x => decide (x ∈ ids))
            = t.filter (fun x => decide (x ∈ ids)) := by
          simp [List.filter_cons, hmem]
        have hsub2 : ∀ x ∈ ids, x ∈ t := by
          intro x hx
          rcases List.mem_cons.mp (hsub x hx) with hEq | hT
          · exact absurd (hEq ▸ hx) hmem
          · exact hT
        rw [hdrop]
        exact length_filter_mem t ht ids hids hsub2

/-- C3: with the server-side view derivation modelled from the spec, a
member's personal schedule contains an activity exactly when that member
has an accepted response for it, and — all responses being settled — the
number of members whose personal schedule shows the activity equals the
number of accepted responses for it.  Hypotheses: member list has no
duplicates, responses are unique per (activity, member) pair, and every
accepted responder is a member. -/
theorem c3_personal_schedule_matches_accepted_responses
    (a : StoredActivity) (acts : List StoredActivity)
    (allRs : List ActivityResponse) (ms : List String)
    (hmem : a ∈ acts)
    (hms : ms.Nodup)
    (hkeys : (allRs.map (fun r => (r.activityId, r.userId))).Nodup)
    (hsub : ∀ r ∈ allRs, r.accepted = true → r.userId ∈ ms) :
    ((ms.filter (fun m => showsOnPersonalSchedule acts allRs ⟨m⟩ a.id)).length
        = (allRs.filter (fun r => r.activityId == a.id && r.accepted)).length)
    ∧ (∀ m : String,
        showsOnPersonalSchedule acts allRs ⟨m⟩ a.id = true
          ↔ ∃ r ∈ allRs, r.activityId = a.id ∧ r.userId = m ∧ r.accepted = true) := by
  refine ⟨?_, fun m => showsOnPersonalSchedule_iff a acts allRs m hmem⟩
  have hidsnodup : (((allRs.filter (fun r => r.activityId == a.id && r.accepted)).map
      (fun r => r.userId))).Nodup := nodup_accepted_userIds allRs a.id hkeys
  have hmemids : ∀ m : String,
      (m ∈ (allRs.filter (fun r => r.activityId == a.id && r.accepted)).map
          (fun r => r.userId))
        ↔ ∃ r ∈ allRs, r.activityId = a.id ∧ r.userId = m ∧ r.accepted = true := by
    intro m
    simp only [List.mem_map, List.mem_filter, Bool.and_eq_true, beq_iff_eq]
    constructor
    · rintro ⟨r, ⟨hr, hrid, hra⟩, hru⟩
      exact ⟨r, hr, hrid, hru, hra⟩
    · rintro ⟨r, hr, hrid, hru, hra⟩
      exact ⟨r, ⟨hr, hrid, hra⟩, hru⟩
  have hfc : ms.filter (fun m => showsOnPersonalSchedule acts allRs ⟨m⟩ a.id)
      = ms.filter (fun m => decide
          (m ∈ (allRs.filter (fun r => r.activityId == a.id && r.accepted)).map
            (fun r => r.userId))) := by
    apply List.filter_congr
    intro m _
    have h1 : showsOnPersonalSchedule acts allRs ⟨m⟩ a.id = true
        ↔ (decide (m ∈ (allRs.filter (fun r => r.activityId == a.id && r.accepted)).map
            (fun r => r.userId))) = true := by
      rw [showsOnPersonalSchedule_iff a acts allRs m hmem, decide_eq_true_eq]
      exact (hmemids m).symm
    cases hb : showsOnPersonalSchedule acts allRs ⟨m⟩ a.id with
    | true => exact (h1.mp hb).symm
    | false =>
        cases hd : decide (m ∈ (allRs.filter
            (fun r => r.activityId == a.id && r.accepted)).map (fun r => r.userId)) with
        | true => exact absurd (h1.mpr hd) (by simp [hb])
        | false => rfl
  have hsubids : ∀ x ∈ (allRs.filter (fun r => r.activityId == a.id && r.accepted)).map
      (fun r => r.userId), x ∈ ms := by
    intro x hx
    obtain ⟨r, hr, hrid, hru, hra⟩ := (hmemids x).mp hx
    exact hru ▸ hsub r hr hra
  rw [hfc, length_filter_mem ms hms _ hidsnodup hsubids, List.length_map]

/-- Witness for C3 at a concrete group: one activity, three members, one
accepted response for it. -/
theorem c3_personal_schedule_matches_accepted_responses_witness :
    ((⟨1, "Dinner", "food"⟩ : StoredActivity) ∈ [(⟨1, "Dinner", "food"⟩ : StoredActivity)])
    ∧ (["u1", "u2", "u3"] : List String).Nodup
    ∧ (([⟨1, "u1", true⟩, ⟨1, "u2", false⟩, ⟨2, "u2", true⟩] : List ActivityResponse).map
        (fun r => (r.activityId, r.userId))).Nodup
    ∧ (∀ r ∈ ([⟨1, "u1", true⟩, ⟨1, "u2", false⟩, ⟨2, "u2", true⟩] : List ActivityResponse),
        r.accepted = true → r.userId ∈ (["u1", "u2", "u3"] : List String))
    ∧ (((["u1", "u2", "u3"] : List String).filter
          (fun m => showsOnPersonalSchedule [⟨1, "Dinner", "food"⟩]
            [⟨1, "u1", true⟩, ⟨1, "u2", false⟩, ⟨2, "u2", true⟩] ⟨m⟩
            (StoredActivity.id ⟨1, "Dinner", "food"⟩))).length
        = (([⟨1, "u1", true⟩, ⟨1, "u2", false⟩, ⟨2, "u2", true⟩] : List ActivityResponse).filter
            (fun r => r.activityId == StoredActivity.id ⟨1, "Dinner", "food"⟩
              && r.accepted)).length)
    ∧ (∀ m : String,
        showsOnPersonalSchedule [⟨1, "Dinner", "food"⟩]
            [⟨1, "u1", true⟩, ⟨1, "u2", false⟩, ⟨2, "u2", true⟩] ⟨m⟩
            (StoredActivity.id ⟨1, "Dinner", "food"⟩) = true
          ↔ ∃ r ∈ ([⟨1, "u1", true⟩, ⟨1, "u2", false⟩, ⟨2, "u2", true⟩] : List ActivityResponse),
              r.activityId = StoredActivity.id ⟨1, "Dinner", "food"⟩
                ∧ r.userId = m ∧ r.accepted = true) := by
  refine ⟨by decide, by decide, by decide, by decide, ?_, ?_⟩
  · exact (c3_personal_schedule_matches_accepted_responses ⟨1, "Dinner", "food"⟩
      [⟨1, "Dinner", "food"⟩] [⟨1, "u1", true⟩, ⟨1, "u2", false⟩, ⟨2, "u2", true⟩]
      ["u1", "u2", "u3"] (by decide) (by decide) (by decide) (by decide)).1
  · exact (c3_personal_schedule_matches_accepted_responses ⟨1, "Dinner", "food"⟩
      [⟨1, "Dinner", "food"⟩] [⟨1, "u1", true⟩, ⟨1, "u2", false⟩, ⟨2, "u2", true⟩]
      ["u1", "u2", "u3"] (by decide) (by decide) (by decide) (by decide)).2

end VacationSync
